import Mathlib

/-!
Shallow embedding of `qotdd` (src/src/main.rs), a quote-of-the-day TCP
service with a per-address rate limiter, and proofs about its behaviour.

The Rust `RateLimits` struct holds a `HashMap<IpAddr, usize>`; we model the
map as a function `Addr → Option Nat` (with `none` for an untracked
address), where `Addr` stands for `IpAddr` (any type with decidable
equality; concrete runs instantiate it at `Nat`).  The counters are `usize`
in Rust and are modelled as `Nat` (the program never brings a counter near
the machine-word bound: counters only grow by 1 per accepted connection and
are decayed every 60 seconds).
-/

namespace Qotdd

/-- Model of the Rust struct `RateLimits { ips: HashMap<IpAddr, usize> }`. -/
structure RateLimits (Addr : Type) where
  ips : Addr → Option Nat

/-- `RateLimits::default()`: the empty map. -/
def RateLimits.empty {Addr : Type} : RateLimits Addr := ⟨fun _ => none⟩

/-- Model of `RateLimits::accept`:
`let count = self.ips.entry(addr).or_default(); let old = *count; *count += 1; old < 10`.
Returns the admission decision together with the updated state. -/
def RateLimits.accept {Addr : Type} [DecidableEq Addr]
    (rl : RateLimits Addr) (addr : Addr) : Bool × RateLimits Addr :=
  let old := (rl.ips addr).getD 0
  (decide (old < 10), ⟨Function.update rl.ips addr (some (old + 1))⟩)

/-- Model of `RateLimits::lower`:
`self.ips.values_mut().for_each(|v| *v = v.saturating_sub(10)); self.ips.retain(|_, v| *v > 0)`.
Natural-number subtraction `c - 10` is `saturating_sub`. -/
def RateLimits.lower {Addr : Type} (rl : RateLimits Addr) : RateLimits Addr :=
  ⟨fun a =>
    match rl.ips a with
    | none => none
    | some c => if c - 10 > 0 then some (c - 10) else none⟩

/-- `n` successive `accept` calls for the same address, keeping only the state. -/
def RateLimits.acceptN {Addr : Type} [DecidableEq Addr]
    (rl : RateLimits Addr) (a : Addr) : Nat → RateLimits Addr
  | 0 => rl
  | n + 1 => ((rl.acceptN a n).accept a).2

/-- One rate-limiter operation, as performed by the service loop. -/
inductive Op (Addr : Type) where
  | accept (a : Addr)
  | lower

/-- Run a sequence of rate-limiter operations from a given state. -/
def runOps {Addr : Type} [DecidableEq Addr] (rl : RateLimits Addr) :
    List (Op Addr) → RateLimits Addr
  | [] => rl
  | Op.accept a :: ops => runOps ((rl.accept a).2) ops
  | Op.lower :: ops => runOps rl.lower ops

/-- Every counter stored in the map is at least 1. -/
def countersPositive {Addr : Type} (rl : RateLimits Addr) : Prop :=
  ∀ a c, rl.ips a = some c → 1 ≤ c

lemma countersPositive_empty {Addr : Type} :
    countersPositive (RateLimits.empty : RateLimits Addr) := by
  intro a c h
  simp [RateLimits.empty] at h

lemma countersPositive_accept {Addr : Type} [DecidableEq Addr]
    {rl : RateLimits Addr} (h : countersPositive rl) (a : Addr) :
    countersPositive ((rl.accept a).2) := by
  intro b c hb
  by_cases hba : b = a
  · subst hba
    simp [RateLimits.accept, Function.update_same] at hb
    omega
  · rw [RateLimits.accept] at hb
    simp only [Function.update_noteq hba] at hb
    exact h b c hb

lemma countersPositive_lower {Addr : Type} (rl : RateLimits Addr) :
    countersPositive rl.lower := by
  intro a c h
  rw [RateLimits.lower] at h
  simp only at h
  cases hip : rl.ips a with
  | none => rw [hip] at h; simp at h
  | some v =>
      rw [hip] at h
      by_cases hv : v - 10 > 0
      · simp [hv] at h; omega
      · simp [hv] at h

lemma countersPositive_runOps {Addr : Type} [DecidableEq Addr]
    (ops : List (Op Addr)) (rl : RateLimits Addr) (h : countersPositive rl) :
    countersPositive (runOps rl ops) := by
  induction ops generalizing rl with
  | nil => exact h
  | cons op ops ih =>
      cases op with
      | accept a => exact ih _ (countersPositive_accept h a)
      | lower => exact ih _ (countersPositive_lower rl)

lemma acceptN_ips_self {Addr : Type} [DecidableEq Addr]
    (rl : RateLimits Addr) (a : Addr) (h : rl.ips a = none) (n : Nat) :
    (rl.acceptN a n).ips a = if n = 0 then none else some n := by
  induction n with
  | zero => simpa [RateLimits.acceptN]
  | succ n ih =>
      have hcount : ((rl.acceptN a n).ips a).getD 0 = n := by
        rw [ih]
        by_cases hn : n = 0 <;> simp [hn]
      simp only [RateLimits.acceptN, RateLimits.accept]
      simp [Function.update_same, hcount]

/-- The quote list from `main` in src/src/main.rs. -/
def mainQuotes : List String :=
  ["Quickness is the essence of the war. ~ Sun Tsu",
   "Pretend inferiority and encourage his arrogance. ~ Sun Tsu",
   "meow. ~ wffl"]

/-- One accepted connection, as seen by `tcp_loop`: the peer address, the
random value driving `SliceRandom::choose` (used modulo the slice length),
and fault-injection flags for the three fallible I/O operations on the
connection (`write_all(quote)`, `write_all(b"\n")`, `shutdown`). -/
structure ConnEvent (Addr : Type) where
  peer : Addr
  rng : Nat
  failWriteQuote : Bool
  failWriteNewline : Bool
  failShutdown : Bool

/-- Result of `listener.accept().await`: an I/O failure, or a connection. -/
inductive AcceptResult (Addr : Type) where
  | failure
  | success (ev : ConnEvent Addr)

/-- Observable action on a connection: bytes written, `shutdown()` completing,
or the stream being closed (dropped) as `tcp_loop` returns. -/
inductive ConnAction where
  | wrote (bytes : String)
  | shutdownConn
  | closed
deriving DecidableEq

/-- How one `tcp_loop` invocation ends: `Ok(())`, an `Err` built by
`wrap_err` (carrying the wrap message), or a panic (the `unwrap` on
`quotes.choose`). -/
inductive TcpOutcome where
  | ok
  | ioError (msg : String)
  | panicked
deriving DecidableEq

/-- Model of `tcp_loop` in src/src/main.rs.  Returns the updated rate-limiter
state, the trace of actions on the connection, and the outcome.  Every exit
path after a successful `accept` ends with `.closed`: the Rust `TcpStream` is
owned by the function and dropped (hence closed) on return, early `?` returns
and unwinding included. -/
def tcp_loop {Addr : Type} [DecidableEq Addr] (quotes : List String)
    (limits : RateLimits Addr) (acc : AcceptResult Addr) :
    RateLimits Addr × List ConnAction × TcpOutcome :=
  match acc with
  | AcceptResult.failure => (limits, [], TcpOutcome.ioError "accepting connection")
  | AcceptResult.success ev =>
      let r := limits.accept ev.peer
      if r.1 then
        match quotes.get? (ev.rng % quotes.length) with
        | none => (r.2, [ConnAction.closed], TcpOutcome.panicked)
        | some q =>
            if ev.failWriteQuote then
              (r.2, [ConnAction.closed], TcpOutcome.ioError "writing quote")
            else if ev.failWriteNewline then
              (r.2, [ConnAction.wrote q, ConnAction.closed],
               TcpOutcome.ioError "writing quote")
            else if ev.failShutdown then
              (r.2, [ConnAction.wrote q, ConnAction.wrote "\n", ConnAction.closed],
               TcpOutcome.ioError "closing connection")
            else
              (r.2, [ConnAction.wrote q, ConnAction.wrote "\n",
                     ConnAction.shutdownConn, ConnAction.closed], TcpOutcome.ok)
      else
        if ev.failShutdown then
          (r.2, [ConnAction.closed], TcpOutcome.ioError "closing connection")
        else
          (r.2, [ConnAction.shutdownConn, ConnAction.closed], TcpOutcome.ok)

/-- Is this action the final close of the connection? -/
def isClosed : ConnAction → Bool
  | ConnAction.closed => true
  | _ => false

/-- How many times the connection is closed in an action trace. -/
def closedCount (acts : List ConnAction) : Nat := (acts.filter isClosed).length

/-- The byte strings written to the connection, in order. -/
def writtenBytes (acts : List ConnAction) : List String :=
  acts.filterMap fun a =>
    match a with
    | ConnAction.wrote s => some s
    | _ => none

/-- One event the `select!` loop in `main` reacts to: the `tcp_loop` future
completing its `accept` (with a connection or an accept error), or the
60-second decay timer tick. -/
inductive LoopEvent (Addr : Type) where
  | conn (acc : AcceptResult Addr)
  | tick

/-- Result of running the service loop body: continue with a new limiter
state, terminate with a fatal error (`result?` propagates it out of `main`),
or panic. -/
inductive LoopResult (Addr : Type) where
  | next (limits : RateLimits Addr)
  | fatal (msg : String)
  | panicked

/-- One iteration of the `loop { tokio::select! { ... } }` in `main`. -/
def serveStep {Addr : Type} [DecidableEq Addr] (quotes : List String)
    (limits : RateLimits Addr) : LoopEvent Addr → LoopResult Addr
  | LoopEvent.conn acc =>
      match tcp_loop quotes limits acc with
      | (l2, _, TcpOutcome.ok) => LoopResult.next l2
      | (_, _, TcpOutcome.ioError e) => LoopResult.fatal e
      | (_, _, TcpOutcome.panicked) => LoopResult.panicked
  | LoopEvent.tick => LoopResult.next limits.lower

/-- The service loop over a finite prefix of events: it keeps iterating until
an iteration is fatal (or panics), which ends the whole process. -/
def serveRun {Addr : Type} [DecidableEq Addr] (quotes : List String)
    (limits : RateLimits Addr) : List (LoopEvent Addr) → LoopResult Addr
  | [] => LoopResult.next limits
  | ev :: rest =>
      match serveStep quotes limits ev with
      | LoopResult.next l2 => serveRun quotes l2 rest
      | LoopResult.fatal e => LoopResult.fatal e
      | LoopResult.panicked => LoopResult.panicked

/-- A startup-phase effect of `main`. -/
inductive StartEffect where
  | readEnv (name : String)
  | log (msg : String)
  | bindPort (port : Nat)
deriving DecidableEq

/-- Is this startup effect a read of an environment variable? -/
def isReadEnv : StartEffect → Bool
  | StartEffect.readEnv _ => true
  | _ => false

/-- Rust `u16::from_str`: an optional leading `+` sign followed by one or
more ASCII digits, value at most 65535; anything else fails to parse. -/
def parseU16 (s : String) : Option Nat :=
  let digits :=
    match s.data with
    | '+' :: rest => rest
    | cs => cs
  if digits = [] then none
  else if digits.all fun c => 48 ≤ c.toNat && c.toNat ≤ 57 then
    let n := digits.foldl (fun acc c => acc * 10 + (c.toNat - 48)) 0
    if n ≤ 65535 then some n else none
  else none

/-- Model of the startup phase of `main`: read `QUOTDD_PORT` (absent ⇒ port
17, present but unparsable ⇒ `bail!` before anything else), check the quote
list is non-empty, log, then bind the listener.  Returns the effects
performed, in order, and the final port (or the startup error, which makes
`main` return `Err` and the process exit nonzero). -/
def startup (env : Option String) : List StartEffect × Except String Nat :=
  let port : Except String Nat :=
    match env with
    | none => Except.ok 17
    | some s =>
        match parseU16 s with
        | some p => Except.ok p
        | none => Except.error "error: invalid port passed in QUOTDD_PORT"
  match port with
  | Except.error e => ([StartEffect.readEnv "QUOTDD_PORT"], Except.error e)
  | Except.ok p =>
      if mainQuotes.isEmpty then
        ([StartEffect.readEnv "QUOTDD_PORT"], Except.error "Quotes are empty")
      else
        ([StartEffect.readEnv "QUOTDD_PORT",
          StartEffect.log "info: Listening on socket",
          StartEffect.bindPort p], Except.ok p)

/-- Address used in the concrete rate-limit scenario (the test uses `127.0.0.1`);
addresses are instantiated at `Nat`. -/
def scenAddr : Nat := 0

/-- State after 20 `accept` calls on one fresh address (10 admitted + 10 rejected). -/
def scenAfterCalls : RateLimits Nat := RateLimits.empty.acceptN scenAddr 20

/-- State after the first `lower` (decay). -/
def scenAfterDecay1 : RateLimits Nat := scenAfterCalls.lower

/-- State after the subsequent (rejected) `accept` call. -/
def scenAfterReject : RateLimits Nat := (scenAfterDecay1.accept scenAddr).2

/-- State after the second `lower` (decay). -/
def scenAfterDecay2 : RateLimits Nat := scenAfterReject.lower

/-- C1: `accept(address)` returns `true` iff the current counter (0 when the
address is untracked) is strictly below the threshold 10, and in both cases it
stores the old counter plus exactly 1 for that address. -/
theorem accept_decision_and_increment {Addr : Type} [DecidableEq Addr]
    (rl : RateLimits Addr) (a : Addr) :
    ((rl.accept a).1 = true ↔ (rl.ips a).getD 0 < 10)
    ∧ (rl.accept a).2.ips a = some ((rl.ips a).getD 0 + 1) := by
  constructor
  · simp [RateLimits.accept]
  · simp [RateLimits.accept, Function.update_same]

/-- C2 (counterexample): in the scenario "10 admitted + 10 rejected accepts,
one decay, one (rejected) accept", the counter at the second decay is 11, so
the second decay leaves the address tracked with counter 1 — it is not
"reduced from 10 to 0" and the address is not pruned, contrary to the claim. -/
theorem scenario_second_decay_not_pruned :
    scenAfterReject.ips scenAddr = some 11
    ∧ scenAfterDecay2.ips scenAddr = some 1
    ∧ ¬ scenAfterDecay2.ips scenAddr = none := by
  refine ⟨by decide, by decide, by decide⟩

/-- C2 (amended): from a fresh limiter, the first 10 `accept` calls on one
address are admitted and the next 10 rejected; after one `lower` the next
`accept` is still rejected (and raises the counter to 11); the second `lower`
then reduces the counter from 11 to 1, leaving the address tracked, and the
next `accept` is admitted. -/
theorem ratelimit_scenario :
    ((List.range 20).all fun n =>
        ((RateLimits.empty.acceptN scenAddr n).accept scenAddr).1 == decide (n < 10)) = true
    ∧ (scenAfterDecay1.accept scenAddr).1 = false
    ∧ scenAfterReject.ips scenAddr = some 11
    ∧ scenAfterDecay2.ips scenAddr = some 1
    ∧ (scenAfterDecay2.accept scenAddr).1 = true := by
  refine ⟨by decide, by decide, by decide, by decide, by decide⟩

/-- C3: `lower` decreases the counter of every tracked address by exactly 10,
floored at 0, and afterwards keeps exactly the addresses whose new counter is
positive: a tracked counter `c ≤ 10` (in particular `1 ≤ c ≤ 10`) is removed,
a counter `c > 10` stays with value `c - 10`. -/
theorem lower_decrements_and_prunes {Addr : Type} (rl : RateLimits Addr)
    (a : Addr) (c : Nat) (h : rl.ips a = some c) :
    rl.lower.ips a = if 10 < c then some (c - 10) else none := by
  rw [RateLimits.lower]
  simp only [h]
  by_cases hc : 10 < c
  · have hpos : c - 10 > 0 := by omega
    simp [hc, hpos]
  · have hz : ¬ c - 10 > 0 := by omega
    simp [hc, hz]

theorem lower_decrements_and_prunes_witness :
    (RateLimits.mk (Function.update (fun _ => none) (0 : Nat) (some 5))).lower.ips 0 =
      (if 10 < 5 then some (5 - 10) else none) :=
  lower_decrements_and_prunes _ 0 5 (by decide)

/-- C4: starting from a state where address `a` is untracked, the `(n+1)`-st
`accept` call for `a` (with no intervening decay) returns `true` exactly when
`n < 10`: the first 10 calls are admitted, every later call is rejected. -/
theorem accept_fresh_sequence {Addr : Type} [DecidableEq Addr]
    (rl : RateLimits Addr) (a : Addr) (h : rl.ips a = none) (n : Nat) :
    ((rl.acceptN a n).accept a).1 = decide (n < 10) := by
  have hc : ((rl.acceptN a n).ips a).getD 0 = n := by
    rw [acceptN_ips_self rl a h n]
    by_cases hn : n = 0 <;> simp [hn]
  simp [RateLimits.accept, hc]

theorem accept_fresh_sequence_witness :
    (RateLimits.empty : RateLimits Nat).ips 0 = none
    ∧ ((RateLimits.empty.acceptN (0 : Nat) 10).accept 0).1 = decide (10 < 10) :=
  ⟨rfl, accept_fresh_sequence RateLimits.empty 0 rfl 10⟩

/-- C9: starting from the empty map, after any sequence of `accept` and `lower`
operations every counter stored in the map is at least 1; an address with
counter 0 is never stored. -/
theorem tracked_counters_positive {Addr : Type} [DecidableEq Addr]
    (ops : List (Op Addr)) (a : Addr) (c : Nat)
    (h : (runOps RateLimits.empty ops).ips a = some c) : 1 ≤ c :=
  countersPositive_runOps ops RateLimits.empty countersPositive_empty a c h

theorem tracked_counters_positive_witness :
    (runOps RateLimits.empty [Op.accept (0 : Nat)]).ips 0 = some 1 ∧ 1 ≤ 1 :=
  ⟨by decide, tracked_counters_positive [Op.accept 0] 0 1 (by decide)⟩

/-- C10: `accept a` changes nothing about any other address `b ≠ a`: its
counter, including its presence or absence in the map, is unchanged. -/
theorem accept_frame {Addr : Type} [DecidableEq Addr]
    (rl : RateLimits Addr) (a b : Addr) (h : b ≠ a) :
    ((rl.accept a).2).ips b = rl.ips b := by
  simp [RateLimits.accept, Function.update_noteq h]

theorem accept_frame_witness :
    (((RateLimits.empty : RateLimits Nat).accept 0).2).ips 1 =
      (RateLimits.empty : RateLimits Nat).ips 1 :=
  accept_frame RateLimits.empty 0 1 (by decide)

/-- C5: for every handled (successfully accepted) connection, the connection
is closed exactly once on every code path; a rejected connection gets zero
bytes and an orderly shutdown; an admitted connection (no I/O faults) gets
one quote from the collection, then exactly one newline string, then the
shutdown, in that order. -/
theorem conn_handling_spec {Addr : Type} [DecidableEq Addr]
    (quotes : List String) (limits : RateLimits Addr) (ev : ConnEvent Addr)
    (hq : quotes ≠ []) :
    closedCount (tcp_loop quotes limits (AcceptResult.success ev)).2.1 = 1
    ∧ ((limits.accept ev.peer).1 = false → ev.failShutdown = false →
        (tcp_loop quotes limits (AcceptResult.success ev)).2.1 =
          [ConnAction.shutdownConn, ConnAction.closed]
        ∧ writtenBytes (tcp_loop quotes limits (AcceptResult.success ev)).2.1 = [])
    ∧ ((limits.accept ev.peer).1 = true → ev.failWriteQuote = false →
        ev.failWriteNewline = false → ev.failShutdown = false →
        ∃ q ∈ quotes, (tcp_loop quotes limits (AcceptResult.success ev)).2.1 =
          [ConnAction.wrote q, ConnAction.wrote "\n",
           ConnAction.shutdownConn, ConnAction.closed]) := by
  have hlen : 0 < quotes.length := List.length_pos.mpr hq
  have hidx : ev.rng % quotes.length < quotes.length := Nat.mod_lt _ hlen
  have hget : quotes[ev.rng % quotes.length]? = some quotes[ev.rng % quotes.length] :=
    List.getElem?_eq_getElem hidx
  have hmem : quotes[ev.rng % quotes.length] ∈ quotes := List.getElem_mem hidx
  refine ⟨?_, ?_, ?_⟩
  · cases hacc : (limits.accept ev.peer).1 <;>
      cases hws : ev.failShutdown <;>
      cases hwq : ev.failWriteQuote <;>
      cases hwn : ev.failWriteNewline <;>
      simp [tcp_loop, hacc, hws, hwq, hwn, hget, closedCount, isClosed, List.filter]
  · intro hacc hws
    constructor <;>
      simp [tcp_loop, hacc, hws, writtenBytes, List.filterMap]
  · intro hacc hwq hwn hws
    exact ⟨_, hmem, by simp [tcp_loop, hacc, hwq, hwn, hws, hget]⟩

theorem conn_handling_spec_witness :
    mainQuotes ≠ []
    ∧ closedCount (tcp_loop mainQuotes (RateLimits.empty : RateLimits Nat)
        (AcceptResult.success ⟨0, 0, false, false, false⟩)).2.1 = 1 := by
  have h := conn_handling_spec mainQuotes (RateLimits.empty : RateLimits Nat)
    ⟨0, 0, false, false, false⟩ (by decide)
  exact ⟨by decide, h.1⟩

/-- C6: startup reads `QUOTDD_PORT` exactly once; when it is absent the port
is 17; when it is present but not a valid u16 the startup result is the
descriptive error (so `main` returns `Err` and the process exits nonzero)
and no bind of any port is ever attempted; when it parses, that port is
used. -/
theorem startup_port_spec :
    (startup none).2 = Except.ok 17
    ∧ (∀ env : Option String,
        (startup env).1.filter isReadEnv = [StartEffect.readEnv "QUOTDD_PORT"])
    ∧ (∀ s : String, parseU16 s = none →
        (startup (some s)).2 = Except.error "error: invalid port passed in QUOTDD_PORT"
        ∧ ∀ p : Nat, StartEffect.bindPort p ∉ (startup (some s)).1)
    ∧ (∀ s : String, ∀ p : Nat, parseU16 s = some p →
        (startup (some s)).2 = Except.ok p) := by
  refine ⟨rfl, ?_, ?_, ?_⟩
  · intro env
    cases env with
    | none => decide
    | some s =>
        cases hp : parseU16 s with
        | none => simp [startup, hp, isReadEnv, List.filter]
        | some p => simp [startup, hp, isReadEnv, List.filter, mainQuotes]
  · intro s hp
    refine ⟨by simp [startup, hp], ?_⟩
    intro p
    simp [startup, hp]
  · intro s p hp
    simp [startup, hp, mainQuotes]

theorem startup_port_spec_witness :
    parseU16 "abc" = none
    ∧ (startup (some "abc")).2 = Except.error "error: invalid port passed in QUOTDD_PORT"
    ∧ StartEffect.bindPort 17 ∉ (startup (some "abc")).1
    ∧ parseU16 "80" = some 80
    ∧ (startup (some "80")).2 = Except.ok 80 := by
  have h := startup_port_spec
  exact ⟨by decide, (h.2.2.1 "abc" (by decide)).1, (h.2.2.1 "abc" (by decide)).2 17,
    by decide, h.2.2.2 "80" 80 (by decide)⟩

/-- C7: a per-connection I/O error (accept, write, or shutdown failure)
makes the service loop stop with that error, whatever events would have
followed: the error is propagated out, not caught and logged per
connection. -/
theorem conn_io_error_fatal {Addr : Type} [DecidableEq Addr]
    (quotes : List String) (limits : RateLimits Addr) (acc : AcceptResult Addr)
    (e : String) (rest : List (LoopEvent Addr))
    (h : (tcp_loop quotes limits acc).2.2 = TcpOutcome.ioError e) :
    serveRun quotes limits (LoopEvent.conn acc :: rest) = LoopResult.fatal e := by
  rcases htl : tcp_loop quotes limits acc with ⟨l2, acts, out⟩
  rw [htl] at h
  simp only at h
  subst h
  simp [serveRun, serveStep, htl]

theorem conn_io_error_fatal_witness :
    (tcp_loop mainQuotes (RateLimits.empty : RateLimits Nat) AcceptResult.failure).2.2 =
      TcpOutcome.ioError "accepting connection"
    ∧ serveRun mainQuotes (RateLimits.empty : RateLimits Nat)
        [LoopEvent.conn AcceptResult.failure, LoopEvent.tick] =
      LoopResult.fatal "accepting connection" :=
  ⟨rfl, conn_io_error_fatal mainQuotes RateLimits.empty AcceptResult.failure
    "accepting connection" [LoopEvent.tick] rfl⟩

/-- C8: with the quote list `main` passes in (which is non-empty),
`quotes.choose(..)` always succeeds, so the `unwrap` in `tcp_loop` never
panics: no invocation of `tcp_loop` ends in a panic. -/
theorem quote_choice_never_panics {Addr : Type} [DecidableEq Addr]
    (limits : RateLimits Addr) (acc : AcceptResult Addr) :
    (tcp_loop mainQuotes limits acc).2.2 ≠ TcpOutcome.panicked := by
  cases acc with
  | failure => simp [tcp_loop]
  | success ev =>
      have hidx : ev.rng % mainQuotes.length < mainQuotes.length :=
        Nat.mod_lt _ (by decide)
      have hget : mainQuotes[ev.rng % mainQuotes.length]? =
          some mainQuotes[ev.rng % mainQuotes.length] :=
        List.getElem?_eq_getElem hidx
      cases hacc : (limits.accept ev.peer).1 <;>
        cases hws : ev.failShutdown <;>
        cases hwq : ev.failWriteQuote <;>
        cases hwn : ev.failWriteNewline <;>
        simp [tcp_loop, hacc, hws, hwq, hwn, hget]

end Qotdd
